import Mathlib

/-!
Verification of the transit-incident analytics backend (Go + PostgreSQL).

The development shallowly embeds the repository layer (`repository.go`) and the
gRPC service layer (`service.go`) as pure Lean functions over an explicit
database state.  Machine `int32` values are modelled as `Int` (no claim depends
on 32-bit overflow), UUIDs as `Nat` identifiers, and SQL timestamps as `Int`
seconds since the epoch.  SQL statements are translated by their semantics over
list-of-row tables, including the effects of the schema constraints that the
statements rely on: `UNIQUE(name)` on lines, `UNIQUE(name, line_id)` on
stations, `UNIQUE(station_id, line_id, ts)` on incidents, and the `NOT NULL`
foreign keys of stations and incidents (a violated constraint makes the
statement fail, which the Go code wraps in `ErrDatabaseError`).  The `CHECK`
value constraints of the schema are not modelled: every store call made by the
service has already passed the validator, so they are unreachable on the paths
verified here.
-/

namespace Transport

/-- Go `strings.TrimSpace`: drop leading and trailing whitespace. -/
def trimSpace (s : String) : String :=
  ⟨((s.data.dropWhile Char.isWhitespace).reverse.dropWhile Char.isWhitespace).reverse⟩

/-- Go `strings.ToLower` (ASCII case folding suffices for the scopes used). -/
def toLowerGo (s : String) : String :=
  ⟨s.data.map Char.toLower⟩

/-- Go `len` on a (trimmed, ASCII) string, i.e. its character count. -/
def strLen (s : String) : Nat := s.data.length

/-- A row of the `lines` table. -/
structure Line where
  id : Nat
  name : String
deriving DecidableEq, Repr

/-- A row of the `stations` table. -/
structure Station where
  id : Nat
  name : String
  lineId : Nat
  status : String
deriving DecidableEq, Repr

/-- A row of the `incidents` table. -/
structure Incident where
  id : Nat
  stationId : Nat
  lineId : Nat
  ts : Int
  durationMinutes : Int
  incidentType : String
  status : String
deriving DecidableEq, Repr

/-- The relational store: the three tables plus a fresh-id source standing in
for the `uuid` default of each primary key. -/
structure DB where
  lines : List Line
  stations : List Station
  incidents : List Incident
  nextId : Nat
deriving DecidableEq, Repr

/-- The repository's sentinel errors (`ErrNotFound`, `ErrInvalidInput`,
`ErrDatabaseError`); a store/constraint failure is wrapped as
`databaseError`. -/
inductive RepoError where
  | notFound
  | invalidInput
  | databaseError
deriving DecidableEq, Repr

/-- gRPC status codes used by the service layer. -/
inductive Code where
  | invalidArgument
  | notFound
  | internal
deriving DecidableEq, Repr

/-- A `status.Error(code, msg)` value returned by the service layer. -/
structure ServiceError where
  code : Code
  msg : String
deriving DecidableEq, Repr

/-- Database well-formedness: the uniqueness constraints of the schema and the
referential integrity of its foreign keys. -/
def DB.WF (db : DB) : Prop :=
  db.lines.Pairwise (fun a b => a.id ≠ b.id ∧ a.name ≠ b.name) ∧
  db.stations.Pairwise (fun a b => a.id ≠ b.id ∧ (a.name ≠ b.name ∨ a.lineId ≠ b.lineId)) ∧
  db.incidents.Pairwise
    (fun a b => a.id ≠ b.id ∧ (a.stationId ≠ b.stationId ∨ a.lineId ≠ b.lineId ∨ a.ts ≠ b.ts)) ∧
  (∀ s ∈ db.stations, ∃ l ∈ db.lines, l.id = s.lineId) ∧
  (∀ i ∈ db.incidents, (∃ s ∈ db.stations, s.id = i.stationId) ∧ ∃ l ∈ db.lines, l.id = i.lineId)

instance (db : DB) : Decidable db.WF := by
  unfold DB.WF
  infer_instance

/-! ## Repository layer (`repository.go`) -/

namespace Repository

/-- `Repository.GetOrCreateLine` executed without interference: `SELECT` by
name inside a transaction, then `INSERT ... RETURNING` when absent.  (The
interleaved two-caller semantics used for the concurrency claim is modelled
separately below.) -/
def getOrCreateLine (db : DB) (name : String) : Except RepoError (Line × DB) :=
  match db.lines.find? (fun l => l.name = name) with
  | some l => .ok (l, db)
  | none =>
    let l : Line := ⟨db.nextId, name⟩
    .ok (l, { db with lines := db.lines ++ [l], nextId := db.nextId + 1 })

/-- `Repository.GetOrCreateStation`: `SELECT` by `(name, line_id)`, then plain
`INSERT ... RETURNING` when absent.  The insert carries no line-existence
check; when `lineID` references no line, the `NOT NULL REFERENCES lines(id)`
foreign key rejects the statement and the Go code wraps the failure as
`ErrDatabaseError`. -/
def getOrCreateStation (db : DB) (name : String) (lineId : Nat) :
    Except RepoError (Station × DB) :=
  match db.stations.find? (fun s => s.name = name && s.lineId = lineId) with
  | some s => .ok (s, db)
  | none =>
    if db.lines.any (fun l => l.id = lineId) then
      let s : Station := ⟨db.nextId, name, lineId, "active"⟩
      .ok (s, { db with stations := db.stations ++ [s], nextId := db.nextId + 1 })
    else
      .error .databaseError

/-- `Repository.CreateIncident`: `INSERT ... ON CONFLICT (station_id, line_id,
ts) DO UPDATE SET duration_minutes = EXCLUDED.duration_minutes, incident_type
= EXCLUDED.incident_type RETURNING ...`.  A fresh insert must satisfy the
`NOT NULL` foreign keys to stations and lines. -/
def createIncident (db : DB) (stationId lineId : Nat) (ts : Int)
    (durationMinutes : Int) (incidentType : String) :
    Except RepoError (Incident × DB) :=
  match db.incidents.find?
      (fun i => i.stationId = stationId && i.lineId = lineId && i.ts = ts) with
  | some old =>
    let upd : Incident := { old with durationMinutes := durationMinutes,
                                     incidentType := incidentType }
    .ok (upd, { db with incidents := db.incidents.map (fun i =>
        if i.stationId = stationId && i.lineId = lineId && i.ts = ts then
          { i with durationMinutes := durationMinutes, incidentType := incidentType }
        else i) })
  | none =>
    if db.stations.any (fun s => s.id = stationId) &&
        db.lines.any (fun l => l.id = lineId) then
      let inc : Incident :=
        ⟨db.nextId, stationId, lineId, ts, durationMinutes, incidentType, "open"⟩
      .ok (inc, { db with incidents := db.incidents ++ [inc], nextId := db.nextId + 1 })
    else
      .error .databaseError

/-- `Repository.CreateLine`: `INSERT ... ON CONFLICT (name) DO UPDATE SET name
= EXCLUDED.name RETURNING ...` — the conflict arm rewrites the name to itself,
so an existing row is returned unchanged. -/
def createLine (db : DB) (name : String) : Except RepoError (Line × DB) :=
  match db.lines.find? (fun l => l.name = name) with
  | some l => .ok (l, db)
  | none =>
    let l : Line := ⟨db.nextId, name⟩
    .ok (l, { db with lines := db.lines ++ [l], nextId := db.nextId + 1 })

/-- `Repository.GetLine`: `SELECT` by id; `sql.ErrNoRows` becomes
`ErrNotFound`. -/
def getLine (db : DB) (id : Nat) : Except RepoError Line :=
  match db.lines.find? (fun l => l.id = id) with
  | some l => .ok l
  | none => .error .notFound

/-- `Repository.UpdateLine`: `UPDATE ... RETURNING`; zero matched rows surface
as `sql.ErrNoRows`, which becomes `ErrNotFound`.  A rename onto an existing
distinct line's name violates `UNIQUE(name)` and fails as a store error. -/
def updateLine (db : DB) (id : Nat) (name : String) : Except RepoError (Line × DB) :=
  match db.lines.find? (fun l => l.id = id) with
  | none => .error .notFound
  | some _ =>
    if db.lines.any (fun l => l.id ≠ id && l.name = name) then
      .error .databaseError
    else
      let upd : Line := ⟨id, name⟩
      .ok (upd, { db with lines := db.lines.map (fun l =>
          if l.id = id then { l with name := name } else l) })

/-- `Repository.DeleteLine`: `DELETE` by id; zero rows affected becomes
`ErrNotFound`.  The schema's `ON DELETE CASCADE` removes dependent stations
and incidents. -/
def deleteLine (db : DB) (id : Nat) : Except RepoError DB :=
  if db.lines.any (fun l => l.id = id) then
    .ok { db with lines := db.lines.filter (fun l => l.id ≠ id),
                  stations := db.stations.filter (fun s => s.lineId ≠ id),
                  incidents := db.incidents.filter (fun i => i.lineId ≠ id) }
  else
    .error .notFound

/-- A row of the station queries that join the owning line's name. -/
structure StationWithLine where
  id : Nat
  name : String
  lineId : Nat
  lineName : String
  status : String
deriving DecidableEq, Repr

/-- The `(SELECT name FROM lines WHERE id = $2)` subquery used by the station
upserts (the line is known to exist on those paths). -/
def lineNameOf (db : DB) (lineId : Nat) : String :=
  match db.lines.find? (fun l => l.id = lineId) with
  | some l => l.name
  | none => ""

/-- `Repository.CreateStation`: an explicit `SELECT EXISTS` guard returns
`ErrNotFound` for a missing line; then the status defaults to `"active"` and
the row is upserted on `(name, line_id)`, the conflict arm updating only the
status. -/
def createStation (db : DB) (name : String) (lineId : Nat) (status : String) :
    Except RepoError (StationWithLine × DB) :=
  if db.lines.any (fun l => l.id = lineId) then
    let statusVal := if status = "" then "active" else status
    match db.stations.find? (fun s => s.name = name && s.lineId = lineId) with
    | some s =>
      let upd : Station := { s with status := statusVal }
      .ok (⟨upd.id, upd.name, upd.lineId, lineNameOf db lineId, upd.status⟩,
        { db with stations := db.stations.map (fun t =>
            if t.name = name && t.lineId = lineId then { t with status := statusVal } else t) })
    | none =>
      let s : Station := ⟨db.nextId, name, lineId, statusVal⟩
      .ok (⟨s.id, s.name, s.lineId, lineNameOf db lineId, s.status⟩,
        { db with stations := db.stations ++ [s], nextId := db.nextId + 1 })
  else
    .error .notFound

/-- `Repository.GetStation`: `SELECT ... JOIN lines`; no joined row becomes
`ErrNotFound`. -/
def getStation (db : DB) (id : Nat) : Except RepoError StationWithLine :=
  match db.stations.find? (fun s => s.id = id) with
  | none => .error .notFound
  | some s =>
    match db.lines.find? (fun l => l.id = s.lineId) with
    | none => .error .notFound
    | some l => .ok ⟨s.id, s.name, s.lineId, l.name, s.status⟩

/-- `Repository.UpdateStation`: read the current row via `GetStation`, merge —
a `nil` or empty-string field keeps the current value — and write both columns
back.  A merged rename onto a sibling station violates
`UNIQUE(name, line_id)` and fails as a store error. -/
def updateStation (db : DB) (id : Nat) (name? status? : Option String) :
    Except RepoError (StationWithLine × DB) :=
  match getStation db id with
  | .error e => .error e
  | .ok current =>
    let newName := match name? with
      | some n => if n = "" then current.name else n
      | none => current.name
    let newStatus := match status? with
      | some st => if st = "" then current.status else st
      | none => current.status
    if db.stations.any (fun s =>
        s.id ≠ id && s.name = newName && s.lineId = current.lineId) then
      .error .databaseError
    else
      .ok (⟨id, newName, current.lineId, current.lineName, newStatus⟩,
        { db with stations := db.stations.map (fun s =>
            if s.id = id then { s with name := newName, status := newStatus } else s) })

/-- `Repository.DeleteStation`: `DELETE` by id; zero rows affected becomes
`ErrNotFound`; dependent incidents cascade. -/
def deleteStation (db : DB) (id : Nat) : Except RepoError DB :=
  if db.stations.any (fun s => s.id = id) then
    .ok { db with stations := db.stations.filter (fun s => s.id ≠ id),
                  incidents := db.incidents.filter (fun i => i.stationId ≠ id) }
  else
    .error .notFound

end Repository

/-! ### Aggregation queries -/

/-- Count descending, the `ORDER BY count DESC` relation. -/
def countDesc (a b : String × Nat) : Prop := b.2 ≤ a.2

instance : DecidableRel countDesc := fun a b => inferInstanceAs (Decidable (b.2 ≤ a.2))

instance : IsTotal (String × Nat) countDesc := ⟨fun a b => (Nat.le_total a.2 b.2).symm⟩

instance : IsTrans (String × Nat) countDesc := ⟨fun _ _ _ h1 h2 => le_trans h2 h1⟩

/-- `COUNT(i.id)` for one group of the line query: the number of join rows of
`lines LEFT JOIN incidents ON l.id = i.line_id` whose `l.name` equals the
group key (the `NULL` padding row of a line without incidents contributes
nothing to the count). -/
def countByLineName (db : DB) (name : String) : Nat :=
  ((db.lines.filter (fun l => l.name = name)).map
    (fun l => (db.incidents.filter (fun i => i.lineId = l.id)).length)).sum

/-- `COUNT(i.id)` for one group of the station query, analogously. -/
def countByStationName (db : DB) (name : String) : Nat :=
  ((db.stations.filter (fun s => s.name = name)).map
    (fun s => (db.incidents.filter (fun i => i.stationId = s.id)).length)).sum

/-- The distinct group keys of `GROUP BY l.name`: every line name appears,
each once (the left join keeps zero-incident lines). -/
def lineGroupNames (db : DB) : List String := (db.lines.map (fun l => l.name)).dedup

/-- The distinct group keys of `GROUP BY s.name`. -/
def stationGroupNames (db : DB) : List String := (db.stations.map (fun s => s.name)).dedup

/-- `Repository.GetTopBreakdownsByLine`: group the left join by line name,
count incidents per group, `ORDER BY count DESC`, `LIMIT $1`. -/
def Repository.getTopBreakdownsByLine (db : DB) (limit : Int) : List (String × Nat) :=
  (((lineGroupNames db).map (fun n => (n, countByLineName db n))).insertionSort
    countDesc).take limit.toNat

/-- `Repository.GetTopBreakdownsByStation`, analogously over stations. -/
def Repository.getTopBreakdownsByStation (db : DB) (limit : Int) : List (String × Nat) :=
  (((stationGroupNames db).map (fun n => (n, countByStationName db n))).insertionSort
    countDesc).take limit.toNat

/-- The incident timestamps of one line, ordered ascending — the
`PARTITION BY l.id ORDER BY i.ts` window of the MTBF query. -/
def incidentTimesOnLine (db : DB) (lineId : Nat) : List Int :=
  ((db.incidents.filter (fun i => i.lineId = lineId)).map (fun i => i.ts)).insertionSort (· ≤ ·)

/-- The `LAG` first differences, in minutes:
`EXTRACT(EPOCH FROM (ts - prev_ts)) / 60.0` for every row with a
predecessor. -/
def successiveGaps : List Int → List ℚ
  | [] => []
  | [_] => []
  | a :: b :: rest => ((b - a : ℤ) : ℚ) / 60 :: successiveGaps (b :: rest)

/-- SQL `AVG` of a list of rationals. -/
def ratMean (l : List ℚ) : ℚ := l.sum / l.length

/-- PostgreSQL `ROUND(x::numeric, 2)`: round to two decimals, ties away from
zero. -/
def pgRound2 (q : ℚ) : ℚ :=
  (if q < 0 then -((⌊-(q * 100) + 1/2⌋ : ℤ) : ℚ) else ((⌊q * 100 + 1/2⌋ : ℤ) : ℚ)) / 100

/-- Name ascending, the `ORDER BY line_name` relation. -/
def nameAsc (a b : String × ℚ) : Prop := a.1 ≤ b.1

instance : DecidableRel nameAsc := fun a b => inferInstanceAs (Decidable (a.1 ≤ b.1))

instance : IsTotal (String × ℚ) nameAsc := ⟨fun a b => le_total a.1 b.1⟩

instance : IsTrans (String × ℚ) nameAsc := ⟨fun _ _ _ h1 h2 => le_trans h1 h2⟩

/-- `Repository.CalculateMTBF`: per line (the window partitions by `l.id`; the
subsequent `GROUP BY l.name` regroups nothing because line names are unique by
schema), take the first differences of the ordered incident timestamps, keep
the lines with at least one difference (`incident_count >= 1` counts the
difference rows), average, round to two decimals, `ORDER BY line_name`.
Zero-incident lines never enter: the CTE joins incidents to lines. -/
def Repository.calculateMTBF (db : DB) : List (String × ℚ) :=
  (db.lines.filterMap (fun l =>
    if 1 ≤ (successiveGaps (incidentTimesOnLine db l.id)).length then
      some (l.name, pgRound2 (ratMean (successiveGaps (incidentTimesOnLine db l.id))))
    else none)).insertionSort nameAsc

/-- A row of the recent-disruptions query: an incident joined with its line
and station names. -/
structure IncidentWithDetails where
  incident : Incident
  lineName : String
  stationName : String
deriving DecidableEq, Repr

/-- Timestamp descending, the `ORDER BY i.ts DESC` relation. -/
def tsDesc (a b : IncidentWithDetails) : Prop := b.incident.ts ≤ a.incident.ts

instance : DecidableRel tsDesc := fun a b =>
  inferInstanceAs (Decidable (b.incident.ts ≤ a.incident.ts))

instance : IsTotal IncidentWithDetails tsDesc :=
  ⟨fun a b => (Int.le_total a.incident.ts b.incident.ts).symm⟩

instance : IsTrans IncidentWithDetails tsDesc := ⟨fun _ _ _ h1 h2 => le_trans h2 h1⟩

/-- The inner join `incidents JOIN lines ON i.line_id = l.id JOIN stations ON
i.station_id = s.id`. -/
def joinedIncidents (db : DB) : List IncidentWithDetails :=
  db.incidents.flatMap (fun i =>
    (db.lines.filter (fun l => l.id = i.lineId)).flatMap (fun l =>
      (db.stations.filter (fun s => s.id = i.stationId)).map (fun s => ⟨i, l.name, s.name⟩)))

/-- `Repository.GetRecentDisruptions`: the join, an `AND l.name = $n` clause
added only for a nonempty line filter, an `AND s.name = $n` clause added only
for a nonempty station filter, `ORDER BY i.ts DESC`, and a `LIMIT` clause
added only when `limit > 0`. -/
def Repository.getRecentDisruptions (db : DB) (lineName stationName : String)
    (limit : Int) : List IncidentWithDetails :=
  let rows := joinedIncidents db
  let rows := if lineName ≠ "" then rows.filter (fun r => r.lineName = lineName) else rows
  let rows := if stationName ≠ "" then rows.filter (fun r => r.stationName = stationName) else rows
  let rows := rows.insertionSort tsDesc
  if 0 < limit then rows.take limit.toNat else rows

/-! ## Service layer (`service.go`)

Request ids arrive as strings and go through `uuid.Parse`; the parse result is
modelled as an `Option Nat` (`none` for a malformed id). -/

namespace Service

/-- `pb.CreateIncidentRequest`; a `nil` protobuf timestamp is `none`. -/
structure CreateIncidentRequest where
  line : String
  station : String
  timestamp : Option Int
  durationMinutes : Int
  incidentType : String
deriving DecidableEq, Repr

/-- The `validTypes` set of `validateIncidentRequest`. -/
def validIncidentTypes : List String := ["mechanical", "power", "signal", "weather", "other"]

/-- The `validStatuses` set of the station handlers. -/
def validStatuses : List String := ["active", "inactive", "maintenance", "closed"]

/-- `Service.validateIncidentRequest`: the if-chain of checks, returning the
first failing check's message. -/
def validateIncidentRequest (now : Int) (req : CreateIncidentRequest) : Option String :=
  let line := trimSpace req.line
  if line = "" then some "line must not be empty"
  else if 100 < strLen line then some "line must not exceed 100 characters"
  else
    let station := trimSpace req.station
    if station = "" then some "station must not be empty"
    else if 100 < strLen station then some "station must not exceed 100 characters"
    else
      match req.timestamp with
      | none => some "timestamp is required"
      | some ts =>
        if now < ts then some "timestamp cannot be in the future"
        else if req.durationMinutes < 0 ∨ 1440 < req.durationMinutes then
          some "duration_minutes must be between 0 and 1440"
        else if req.incidentType ∉ validIncidentTypes then
          some "incident_type must be one of: mechanical, power, signal, weather, other"
        else none

/-- One repository invocation, recorded to witness which store accesses a
service call performs. -/
inductive RepoCall where
  | getOrCreateLine (name : String)
  | getOrCreateStation (name : String) (lineId : Nat)
  | createIncident (stationId lineId : Nat) (ts : Int) (durationMinutes : Int)
      (incidentType : String)
deriving DecidableEq, Repr

/-- `pb.IncidentResponse`. -/
structure IncidentResponse where
  id : Nat
  line : String
  station : String
  timestamp : Int
  durationMinutes : Int
  incidentType : String
  lineId : Nat
  stationId : Nat
  status : String
deriving DecidableEq, Repr

/-- `Service.CreateIncident`: validate (InvalidArgument before any store
access), resolve the line then the station by get-or-create (failures mapped
to Internal), then upsert the incident.  Besides the result and the final
database, the list of repository calls made is returned. -/
def createIncident (db : DB) (now : Int) (req : CreateIncidentRequest) :
    Except ServiceError IncidentResponse × DB × List RepoCall :=
  match validateIncidentRequest now req with
  | some msg => (.error ⟨.invalidArgument, msg⟩, db, [])
  | none =>
    let lineCall := RepoCall.getOrCreateLine (trimSpace req.line)
    match Repository.getOrCreateLine db (trimSpace req.line) with
    | .error _ => (.error ⟨.internal, "failed to process line"⟩, db, [lineCall])
    | .ok (line, db1) =>
      let stationCall := RepoCall.getOrCreateStation (trimSpace req.station) line.id
      match Repository.getOrCreateStation db1 (trimSpace req.station) line.id with
      | .error _ =>
        (.error ⟨.internal, "failed to process station"⟩, db1, [lineCall, stationCall])
      | .ok (station, db2) =>
        let ts := (req.timestamp).getD 0
        let incCall := RepoCall.createIncident station.id line.id ts
          req.durationMinutes req.incidentType
        match Repository.createIncident db2 station.id line.id ts
            req.durationMinutes req.incidentType with
        | .error _ =>
          (.error ⟨.internal, "failed to create incident"⟩, db2,
            [lineCall, stationCall, incCall])
        | .ok (inc, db3) =>
          (.ok ⟨inc.id, req.line, req.station, inc.ts, inc.durationMinutes,
              inc.incidentType, line.id, station.id, inc.status⟩, db3,
            [lineCall, stationCall, incCall])

/-- The limit policy of `Service.GetTopBreakdowns`: default 5 when
non-positive, cap 100. -/
def effectiveTopBreakdownsLimit (reqLimit : Int) : Int :=
  let limit := if reqLimit ≤ 0 then 5 else reqLimit
  if 100 < limit then 100 else limit

/-- The limit policy of `Service.GetRecentDisruptions`: default 20 when
non-positive, cap 100. -/
def effectiveRecentDisruptionsLimit (reqLimit : Int) : Int :=
  let limit := if reqLimit ≤ 0 then 20 else reqLimit
  if 100 < limit then 100 else limit

/-- `Service.GetTopBreakdowns`: normalize the scope (trim, lowercase), reject
anything not normalizing to `line`/`station`, clamp the limit, dispatch. -/
def getTopBreakdowns (db : DB) (reqScope : String) (reqLimit : Int) :
    Except ServiceError (String × List (String × Nat)) :=
  let scope := toLowerGo (trimSpace reqScope)
  if scope ≠ "line" ∧ scope ≠ "station" then
    .error ⟨.invalidArgument, "scope must be line or station"⟩
  else
    let limit := effectiveTopBreakdownsLimit reqLimit
    if scope = "line" then .ok (scope, Repository.getTopBreakdownsByLine db limit)
    else .ok (scope, Repository.getTopBreakdownsByStation db limit)

/-- `Service.GetRecentDisruptions`: clamp the limit, trim both filters, and
query. -/
def getRecentDisruptions (db : DB) (reqLine reqStation : String) (reqLimit : Int) :
    Except ServiceError (List IncidentWithDetails) :=
  let limit := effectiveRecentDisruptionsLimit reqLimit
  .ok (Repository.getRecentDisruptions db (trimSpace reqLine) (trimSpace reqStation) limit)

/-- `Service.GetMTBF`. -/
def getMTBF (db : DB) : Except ServiceError (List (String × ℚ)) :=
  .ok (Repository.calculateMTBF db)

/-- `Service.GetLine`: malformed id is InvalidArgument, `ErrNotFound` maps to
NotFound, any other repository error to Internal. -/
def getLine (db : DB) (reqId : Option Nat) : Except ServiceError Line :=
  match reqId with
  | none => .error ⟨.invalidArgument, "invalid line ID"⟩
  | some id =>
    match Repository.getLine db id with
    | .error .notFound => .error ⟨.notFound, "line not found"⟩
    | .error _ => .error ⟨.internal, "failed to get line"⟩
    | .ok l => .ok l

/-- `Service.UpdateLine`: id parse, name validation, then the repository
update with `ErrNotFound` mapped to NotFound. -/
def updateLine (db : DB) (reqId : Option Nat) (reqName : String) :
    Except ServiceError (Line × DB) :=
  match reqId with
  | none => .error ⟨.invalidArgument, "invalid line ID"⟩
  | some id =>
    let name := trimSpace reqName
    if name = "" then .error ⟨.invalidArgument, "name must not be empty"⟩
    else if 100 < strLen name then
      .error ⟨.invalidArgument, "name must not exceed 100 characters"⟩
    else
      match Repository.updateLine db id name with
      | .error .notFound => .error ⟨.notFound, "line not found"⟩
      | .error _ => .error ⟨.internal, "failed to update line"⟩
      | .ok r => .ok r

/-- `Service.DeleteLine`. -/
def deleteLine (db : DB) (reqId : Option Nat) : Except ServiceError DB :=
  match reqId with
  | none => .error ⟨.invalidArgument, "invalid line ID"⟩
  | some id =>
    match Repository.deleteLine db id with
    | .error .notFound => .error ⟨.notFound, "line not found"⟩
    | .error _ => .error ⟨.internal, "failed to delete line"⟩
    | .ok db2 => .ok db2

/-- `Service.GetStation`. -/
def getStation (db : DB) (reqId : Option Nat) : Except ServiceError Repository.StationWithLine :=
  match reqId with
  | none => .error ⟨.invalidArgument, "invalid station ID"⟩
  | some id =>
    match Repository.getStation db id with
    | .error .notFound => .error ⟨.notFound, "station not found"⟩
    | .error _ => .error ⟨.internal, "failed to get station"⟩
    | .ok s => .ok s

/-- `Service.UpdateStation`: a nonempty `req.Name` is trimmed,
length-checked, and passed as a provided field (even when the trim left it
empty); a nonempty `req.Status` is trimmed and checked against the enum; at
least one field must be provided; then the repository merge-update runs. -/
def updateStation (db : DB) (reqId : Option Nat) (reqName reqStatus : String) :
    Except ServiceError (Repository.StationWithLine × DB) :=
  match reqId with
  | none => .error ⟨.invalidArgument, "invalid station ID"⟩
  | some id =>
    if reqName ≠ "" ∧ 100 < strLen (trimSpace reqName) then
      .error ⟨.invalidArgument, "name must not exceed 100 characters"⟩
    else
      let name? : Option String := if reqName ≠ "" then some (trimSpace reqName) else none
      if reqStatus ≠ "" ∧ trimSpace reqStatus ∉ validStatuses then
        .error ⟨.invalidArgument, "status must be one of: active, inactive, maintenance, closed"⟩
      else
        let status? : Option String :=
          if reqStatus ≠ "" then some (trimSpace reqStatus) else none
        if name? = none ∧ status? = none then
          .error ⟨.invalidArgument, "at least one field (name or status) must be provided"⟩
        else
          match Repository.updateStation db id name? status? with
          | .error .notFound => .error ⟨.notFound, "station not found"⟩
          | .error _ => .error ⟨.internal, "failed to update station"⟩
          | .ok r => .ok r

/-- `Service.DeleteStation`. -/
def deleteStation (db : DB) (reqId : Option Nat) : Except ServiceError DB :=
  match reqId with
  | none => .error ⟨.invalidArgument, "invalid station ID"⟩
  | some id =>
    match Repository.deleteStation db id with
    | .error .notFound => .error ⟨.notFound, "station not found"⟩
    | .error _ => .error ⟨.internal, "failed to delete station"⟩
    | .ok db2 => .ok db2

end Service

/-! ## Interleaved semantics of `GetOrCreateLine` (two concurrent callers)

`Repository.GetOrCreateLine` issues two store statements: a `SELECT` by name
and, on a miss, an `INSERT`.  The transaction around them is opened with
default options (READ COMMITTED), so each statement sees the committed state
at its own execution time: the `SELECT` reads the current table, and the
`INSERT` is checked against the current table by the `UNIQUE(name)`
constraint, failing as a store error (`ErrDatabaseError`) when the name is
already present.  Two callers running the same name are modelled as two such
two-step programs driven by an arbitrary interleaving schedule. -/

deriving instance DecidableEq for Except

/-- The progress of one caller: before its `SELECT`, after a missed `SELECT`
(so an `INSERT` is pending), or finished with a result. -/
inductive CallPhase where
  | start
  | mustInsert
  | done (result : Except RepoError Line)
deriving DecidableEq, Repr

/-- The shared store plus both callers' progress. -/
structure RaceState where
  db : DB
  callA : CallPhase
  callB : CallPhase
deriving DecidableEq, Repr

/-- Run the next store statement of one caller against the committed state. -/
def stepCaller (name : String) (db : DB) : CallPhase → DB × CallPhase
  | .start =>
    match db.lines.find? (fun l => l.name = name) with
    | some l => (db, .done (.ok l))
    | none => (db, .mustInsert)
  | .mustInsert =>
    if db.lines.any (fun l => l.name = name) then
      (db, .done (.error .databaseError))
    else
      let l : Line := ⟨db.nextId, name⟩
      ({ db with lines := db.lines ++ [l], nextId := db.nextId + 1 }, .done (.ok l))
  | .done r => (db, .done r)

/-- One scheduler step: `true` advances caller A, `false` caller B. -/
def raceStep (name : String) (st : RaceState) (pickA : Bool) : RaceState :=
  if pickA then
    let s := stepCaller name st.db st.callA
    { st with db := s.1, callA := s.2 }
  else
    let s := stepCaller name st.db st.callB
    { st with db := s.1, callB := s.2 }

/-- Run a whole schedule. -/
def raceRun (name : String) (st : RaceState) : List Bool → RaceState
  | [] => st
  | pick :: rest => raceRun name (raceStep name st pick) rest

/-- Both callers started from scratch on `db`, driven by `sched`. -/
def raceFinal (db : DB) (name : String) (sched : List Bool) : RaceState :=
  raceRun name ⟨db, .start, .start⟩ sched

/-- The number of `lines` rows bearing a name. -/
def linesNamed (db : DB) (name : String) : Nat :=
  (db.lines.filter (fun l => l.name = name)).length

/-- The invariant of the race: at most one row with the contended name, and a
finished caller holds either a row of that name that is in the table, or a
store error raised when the row already existed. -/
def callOK (name : String) (db : DB) : CallPhase → Prop
  | .start => True
  | .mustInsert => True
  | .done (.ok l) => l ∈ db.lines ∧ l.name = name
  | .done (.error e) => e = .databaseError ∧ 1 ≤ linesNamed db name

/-- The race invariant over the whole state. -/
def RaceInv (name : String) (st : RaceState) : Prop :=
  linesNamed st.db name ≤ 1 ∧ callOK name st.db st.callA ∧ callOK name st.db st.callB

/-! ## Predicates taken from the claims (for the refinement-style statements) -/

/-- The rejection condition of claim C7, modelled from the claim's words: the
trimmed line or station name is empty or longer than 100 characters, the
timestamp is missing or in the future, the duration lies outside [0, 1440],
or the incident type is not in the closed enumeration. -/
def specInvalidIncident (now : Int) (req : Service.CreateIncidentRequest) : Prop :=
  trimSpace req.line = "" ∨ 100 < strLen (trimSpace req.line) ∨
  trimSpace req.station = "" ∨ 100 < strLen (trimSpace req.station) ∨
  req.timestamp = none ∨ now < (req.timestamp).getD now ∨
  req.durationMinutes < 0 ∨ 1440 < req.durationMinutes ∨
  req.incidentType ∉ Service.validIncidentTypes

instance (now : Int) (req : Service.CreateIncidentRequest) :
    Decidable (specInvalidIncident now req) := by
  unfold specInvalidIncident
  infer_instance

/-- The shape claim C5 requires of a top-breakdowns result, modelled from the
claim's words: counts grouped by entity name with zero-count entities
included, ordered by count descending, truncated to the effective limit. -/
def TopBreakdownsPost (names : List String) (count : String → Nat) (eff : Nat)
    (items : List (String × Nat)) : Prop :=
  items.Sorted countDesc ∧
  items.length = min eff names.length ∧
  (∀ p ∈ items, p.1 ∈ names ∧ p.2 = count p.1) ∧
  (names.length ≤ eff → ∀ n ∈ names, (n, count n) ∈ items)

/-- The number of incident rows carrying one `(station_id, line_id, ts)`
triple. -/
def tripleCount (db : DB) (stationId lineId : Nat) (ts : Int) : Nat :=
  (db.incidents.filter
    (fun i => i.stationId = stationId && i.lineId = lineId && i.ts = ts)).length

/-! ## Concrete databases for witnesses and counterexamples -/

/-- The empty store. -/
def emptyDB : DB := ⟨[], [], [], 0⟩

/-- One line, one station, three incidents at `t0`, `t0+10min`, `t0+30min` —
the worked MTBF example of the specification. -/
def mtbfExampleDB : DB :=
  { lines := [⟨0, "North South Line"⟩],
    stations := [⟨1, "Jurong East", 0, "active"⟩],
    incidents := [⟨2, 1, 0, 0, 30, "power", "open"⟩,
                  ⟨3, 1, 0, 600, 20, "signal", "open"⟩,
                  ⟨4, 1, 0, 1800, 10, "mechanical", "open"⟩],
    nextId := 5 }

/-- Two lines and two stations with a single incident, for the service-level
witnesses. -/
def smallDB : DB :=
  { lines := [⟨0, "North South Line"⟩, ⟨1, "Circle Line"⟩],
    stations := [⟨2, "Jurong East", 0, "active"⟩, ⟨3, "Bishan", 1, "active"⟩],
    incidents := [⟨4, 2, 0, 3600, 25, "signal", "open"⟩],
    nextId := 5 }

/-! # Theorems settling the claims -/

/-- C4: for every requested limit, the effective limit of GetTopBreakdowns is
5 when the request is non-positive (the unspecified proto field reads 0) and
100 when the request exceeds 100; GetRecentDisruptions defaults to 20 and
caps at 100 likewise; in all cases the applied limit lies in [1, 100], and
the service handlers query the repository with exactly these effective
limits. -/
theorem claim_C4_limit_clamping (db : DB) (reqLimit : Int) :
    (reqLimit ≤ 0 → Service.effectiveTopBreakdownsLimit reqLimit = 5) ∧
    (100 < reqLimit → Service.effectiveTopBreakdownsLimit reqLimit = 100) ∧
    (reqLimit ≤ 0 → Service.effectiveRecentDisruptionsLimit reqLimit = 20) ∧
    (100 < reqLimit → Service.effectiveRecentDisruptionsLimit reqLimit = 100) ∧
    (1 ≤ Service.effectiveTopBreakdownsLimit reqLimit ∧
      Service.effectiveTopBreakdownsLimit reqLimit ≤ 100) ∧
    (1 ≤ Service.effectiveRecentDisruptionsLimit reqLimit ∧
      Service.effectiveRecentDisruptionsLimit reqLimit ≤ 100) ∧
    (∀ lineFilter stationFilter : String,
      Service.getRecentDisruptions db lineFilter stationFilter reqLimit =
        .ok (Repository.getRecentDisruptions db (trimSpace lineFilter)
          (trimSpace stationFilter) (Service.effectiveRecentDisruptionsLimit reqLimit))) ∧
    Service.getTopBreakdowns db "line" reqLimit =
      .ok ("line", Repository.getTopBreakdownsByLine db
        (Service.effectiveTopBreakdownsLimit reqLimit)) := by
  refine ⟨?_, ?_, ?_, ?_, ⟨?_, ?_⟩, ⟨?_, ?_⟩, fun l s => rfl, rfl⟩ <;>
    · simp only [Service.effectiveTopBreakdownsLimit,
        Service.effectiveRecentDisruptionsLimit]
      try intro h
      split_ifs <;> omega

/-- Witness for C4 at the concrete limits −3, 200, 0 and 101. -/
theorem claim_C4_limit_clamping_witness :
    Service.effectiveTopBreakdownsLimit (-3) = 5 ∧
    Service.effectiveTopBreakdownsLimit 200 = 100 ∧
    Service.effectiveRecentDisruptionsLimit 0 = 20 ∧
    Service.effectiveRecentDisruptionsLimit 101 = 100 :=
  ⟨(claim_C4_limit_clamping emptyDB (-3)).1 (by decide),
   (claim_C4_limit_clamping emptyDB 200).2.1 (by decide),
   (claim_C4_limit_clamping emptyDB 0).2.2.1 (by decide),
   (claim_C4_limit_clamping emptyDB 101).2.2.2.1 (by decide)⟩

/-- C3 counterexample: on an empty store, where line 7 does not exist,
`GetOrCreateStation` fails with the wrapped store error (the foreign-key
violation of its unchecked insert), not with the NotFound sentinel — so the
claim that every station-creation operation surfaces a missing line as
NotFound is false for `GetOrCreateStation`. -/
theorem claim_C3_counterexample :
    Repository.getOrCreateStation emptyDB "Jurong East" 7 = .error .databaseError ∧
    Repository.getOrCreateStation emptyDB "Jurong East" 7 ≠ .error .notFound := by
  decide

/-- C3 amended: when `lineId` references no existing line, the explicit
`CreateStation` fails with NotFound (it guards with a `SELECT EXISTS` check),
but the internal `GetOrCreateStation` used during incident ingestion performs
no such check: absent an existing `(name, lineId)` row it attempts the insert
and fails with the generic wrapped store error, not NotFound. -/
theorem claim_C3_missing_line_errors (db : DB) (name : String) (lineId : Nat)
    (status : String)
    (hline : ∀ l ∈ db.lines, l.id ≠ lineId)
    (hstation : ∀ s ∈ db.stations, ¬(s.name = name ∧ s.lineId = lineId)) :
    Repository.createStation db name lineId status = .error .notFound ∧
    Repository.getOrCreateStation db name lineId = .error .databaseError ∧
    Repository.getOrCreateStation db name lineId ≠ .error .notFound := by
  have hany : db.lines.any (fun l => l.id = lineId) = false := by
    rw [List.any_eq_false]
    intro l hl
    simpa using hline l hl
  have hfind : db.stations.find? (fun s => s.name = name && s.lineId = lineId) = none := by
    rw [List.find?_eq_none]
    intro s hs
    simpa using hstation s hs
  refine ⟨?_, ?_, ?_⟩ <;>
    simp [Repository.createStation, Repository.getOrCreateStation, hany, hfind]

/-- Witness for the amended C3 on the empty store. -/
theorem claim_C3_missing_line_errors_witness :
    Repository.createStation emptyDB "Bishan" 7 "active" = .error .notFound ∧
    Repository.getOrCreateStation emptyDB "Bishan" 7 = .error .databaseError ∧
    Repository.getOrCreateStation emptyDB "Bishan" 7 ≠ .error .notFound :=
  claim_C3_missing_line_errors emptyDB "Bishan" 7 "active" (by decide) (by decide)

/-- C8: each of GetLine, UpdateLine, DeleteLine, GetStation, UpdateStation
and DeleteStation, called with a well-formed id (the parse succeeded) that
matches no stored row, returns NotFound — in particular both deletes report
zero rows affected as NotFound — and never Internal. -/
theorem claim_C8_missing_id_not_found (db : DB) (id : Nat)
    (hline : ∀ l ∈ db.lines, l.id ≠ id)
    (hstation : ∀ s ∈ db.stations, s.id ≠ id) :
    Service.getLine db (some id) = .error ⟨.notFound, "line not found"⟩ ∧
    Service.updateLine db (some id) "New Name" = .error ⟨.notFound, "line not found"⟩ ∧
    Service.deleteLine db (some id) = .error ⟨.notFound, "line not found"⟩ ∧
    Service.getStation db (some id) = .error ⟨.notFound, "station not found"⟩ ∧
    Service.updateStation db (some id) "New Name" "" =
      .error ⟨.notFound, "station not found"⟩ ∧
    Service.deleteStation db (some id) = .error ⟨.notFound, "station not found"⟩ := by
  have hfindl : db.lines.find? (fun l => l.id = id) = none := by
    rw [List.find?_eq_none]
    intro l hl
    simpa using hline l hl
  have hanyl : db.lines.any (fun l => l.id = id) = false := by
    rw [List.any_eq_false]
    intro l hl
    simpa using hline l hl
  have hfinds : db.stations.find? (fun s => s.id = id) = none := by
    rw [List.find?_eq_none]
    intro s hs
    simpa using hstation s hs
  have hanys : db.stations.any (fun s => s.id = id) = false := by
    rw [List.any_eq_false]
    intro s hs
    simpa using hstation s hs
  have hname : trimSpace "New Name" = "New Name" := by decide
  have hlen : strLen "New Name" ≤ 100 := by decide
  refine ⟨?_, ?_, ?_, ?_, ?_, ?_⟩ <;>
    simp [Service.getLine, Service.updateLine, Service.deleteLine, Service.getStation,
      Service.updateStation, Service.deleteStation, Repository.getLine,
      Repository.updateLine, Repository.deleteLine, Repository.getStation,
      Repository.updateStation, Repository.deleteStation, hfindl, hanyl, hfinds, hanys,
      hname, hlen, Service.validStatuses]

/-- Witness for C8 on the empty store with id 0. -/
theorem claim_C8_missing_id_not_found_witness :
    Service.getLine emptyDB (some 0) = .error ⟨.notFound, "line not found"⟩ ∧
    Service.updateLine emptyDB (some 0) "New Name" = .error ⟨.notFound, "line not found"⟩ ∧
    Service.deleteLine emptyDB (some 0) = .error ⟨.notFound, "line not found"⟩ ∧
    Service.getStation emptyDB (some 0) = .error ⟨.notFound, "station not found"⟩ ∧
    Service.updateStation emptyDB (some 0) "New Name" "" =
      .error ⟨.notFound, "station not found"⟩ ∧
    Service.deleteStation emptyDB (some 0) = .error ⟨.notFound, "station not found"⟩ :=
  claim_C8_missing_id_not_found emptyDB 0 (by decide) (by decide)

/-- The validator rejects exactly the inputs described by
`specInvalidIncident`. -/
theorem validateIncidentRequest_isSome_iff (now : Int) (req : Service.CreateIncidentRequest) :
    (Service.validateIncidentRequest now req).isSome = true ↔ specInvalidIncident now req := by
  unfold Service.validateIncidentRequest specInvalidIncident
  rcases h : req.timestamp with _ | ts <;>
    · simp only [h]
      split_ifs <;> simp_all <;> tauto

/-- C7: CreateIncident returns InvalidArgument exactly when the trimmed line
or station name is empty or over 100 characters, the timestamp is missing or
in the future, the duration lies outside [0, 1440], or the incident type is
not in the enumeration; and on such input it performs no repository call and
leaves the store untouched.  (The boundary inputs — a 100-character name,
durations 0 and 1440 — fall on the accepting side of the iff.) -/
theorem claim_C7_validation (db : DB) (now : Int) (req : Service.CreateIncidentRequest) :
    ((∃ e, (Service.createIncident db now req).1 = .error e ∧ e.code = .invalidArgument) ↔
      specInvalidIncident now req) ∧
    (specInvalidIncident now req →
      (Service.createIncident db now req).2.1 = db ∧
      (Service.createIncident db now req).2.2 = []) := by
  have hiff := validateIncidentRequest_isSome_iff now req
  cases hv : Service.validateIncidentRequest now req with
  | some msg =>
    have hspec : specInvalidIncident now req := hiff.mp (by simp [hv])
    refine ⟨⟨fun _ => hspec, fun _ => ⟨⟨.invalidArgument, msg⟩, ?_, rfl⟩⟩,
      fun _ => ⟨?_, ?_⟩⟩ <;> simp [Service.createIncident, hv]
  | none =>
    have hspec : ¬ specInvalidIncident now req := by
      intro hs
      have := hiff.mpr hs
      simp [hv] at this
    have hno : ∀ e : ServiceError,
        (Service.createIncident db now req).1 = .error e → e.code = .internal := by
      intro e he
      rcases h1 : Repository.getOrCreateLine db (trimSpace req.line) with e1 | ⟨line, db1⟩
      · simp [Service.createIncident, hv, h1] at he
        rw [← he]
      · rcases h2 : Repository.getOrCreateStation db1 (trimSpace req.station) line.id
          with e2 | ⟨station, db2⟩
        · simp [Service.createIncident, hv, h1, h2] at he
          rw [← he]
        · rcases h3 : Repository.createIncident db2 station.id line.id
              ((req.timestamp).getD 0) req.durationMinutes req.incidentType
            with e3 | ⟨inc, db3⟩
          · simp [Service.createIncident, hv, h1, h2, h3] at he
            rw [← he]
          · simp [Service.createIncident, hv, h1, h2, h3] at he
    refine ⟨⟨fun he => ?_, fun hs => absurd hs hspec⟩, fun hs => absurd hs hspec⟩
    obtain ⟨e, he, hc⟩ := he
    rw [hno e he] at hc
    exact Code.noConfusion hc

/-- Witness for C7: an empty line name is rejected with no repository call;
a 100-character name with duration 1440 is not rejected. -/
theorem claim_C7_validation_witness :
    ((Service.createIncident emptyDB 0
        ⟨"", "Jurong East", some 0, 10, "power"⟩).2.1 = emptyDB ∧
      (Service.createIncident emptyDB 0
        ⟨"", "Jurong East", some 0, 10, "power"⟩).2.2 = []) ∧
    ¬(∃ e, (Service.createIncident emptyDB 0
        ⟨⟨List.replicate 100 'a'⟩, "Jurong East", some 0, 1440, "power"⟩).1 = .error e ∧
      e.code = .invalidArgument) :=
  ⟨(claim_C7_validation emptyDB 0 ⟨"", "Jurong East", some 0, 10, "power"⟩).2
      (by decide),
   fun h =>
    (by decide : ¬ specInvalidIncident 0
        ⟨⟨List.replicate 100 'a'⟩, "Jurong East", some 0, 1440, "power"⟩)
      ((claim_C7_validation emptyDB 0
        ⟨⟨List.replicate 100 'a'⟩, "Jurong East", some 0, 1440, "power"⟩).1.mp h)⟩

/-- In a well-formed store, two distinct station rows differ in id and in the
`(name, lineId)` key. -/
theorem station_distinct_key {db : DB} (hwf : db.WF) {a b : Station}
    (ha : a ∈ db.stations) (hb : b ∈ db.stations) (hne : a ≠ b) :
    a.id ≠ b.id ∧ (a.name ≠ b.name ∨ a.lineId ≠ b.lineId) := by
  have hsym : Symmetric (fun a b : Station =>
      a.id ≠ b.id ∧ (a.name ≠ b.name ∨ a.lineId ≠ b.lineId)) := by
    intro x y h
    exact ⟨fun hh => h.1 hh.symm, h.2.imp (fun hh hx => hh hx.symm) (fun hh hx => hh hx.symm)⟩
  exact List.Pairwise.forall hsym hwf.2.1 ha hb hne

/-- In a well-formed store, two stations with the same id are the same row. -/
theorem station_eq_of_same_id {db : DB} (hwf : db.WF) {a b : Station}
    (ha : a ∈ db.stations) (hb : b ∈ db.stations) (hid : a.id = b.id) : a = b := by
  by_contra hne
  exact (station_distinct_key hwf ha hb hne).1 hid

/-- C10: an UpdateStation request whose name is non-empty but all whitespace
(and with no status) is not rejected — the name counts as a provided field,
so the at-least-one-field check passes — yet the store is left completely
unchanged: the empty-after-trim name is treated as "not provided" by the
repository merge rather than written or reported as an error. -/
theorem claim_C10_whitespace_name_update (db : DB) (id : Nat) (reqName : String)
    (hwf : db.WF) (hne : reqName ≠ "") (htrim : trimSpace reqName = "")
    (hst : ∃ s ∈ db.stations, s.id = id) :
    ∃ resp db2,
      Service.updateStation db (some id) reqName "" = .ok (resp, db2) ∧ db2 = db := by
  obtain ⟨sw, hswmem, hswid⟩ := hst
  have hisSome : (db.stations.find? (fun s => s.id = id)).isSome := by
    rw [List.find?_isSome]
    exact ⟨sw, hswmem, by simpa using hswid⟩
  obtain ⟨s0, hfind⟩ := Option.isSome_iff_exists.mp hisSome
  have hs0mem : s0 ∈ db.stations := List.mem_of_find?_eq_some hfind
  have hs0id : s0.id = id := by simpa using List.find?_some hfind
  obtain ⟨l0, hl0mem, hl0id⟩ := hwf.2.2.2.1 s0 hs0mem
  have hlisSome : (db.lines.find? (fun l => l.id = s0.lineId)).isSome := by
    rw [List.find?_isSome]
    exact ⟨l0, hl0mem, by simpa using hl0id⟩
  obtain ⟨lf, hlfind⟩ := Option.isSome_iff_exists.mp hlisSome
  have hget : Repository.getStation db id = .ok ⟨s0.id, s0.name, s0.lineId, lf.name, s0.status⟩ := by
    unfold Repository.getStation
    simp only [hfind, hlfind]
  have hmapid : (db.stations.map (fun s =>
      if s.id = id then { s with name := s0.name, status := s0.status } else s)) = db.stations := by
    have hpt : ∀ s ∈ db.stations,
        (if s.id = id then { s with name := s0.name, status := s0.status } else s) = s := by
      intro s hs
      by_cases h : s.id = id
      · rw [if_pos h, station_eq_of_same_id hwf hs hs0mem (by rw [h, hs0id])]
      · rw [if_neg h]
    calc db.stations.map _ = db.stations.map (fun s => s) := List.map_congr_left hpt
      _ = db.stations := by simp
  have hrepo : Repository.updateStation db id (some "") none =
      .ok (⟨id, s0.name, s0.lineId, lf.name, s0.status⟩, db) := by
    unfold Repository.updateStation
    simp only [hget]
    simp [hmapid]
    intro s hs hsid hsname
    have hne2 : s ≠ s0 := fun he => hsid (by rw [he]; exact hs0id)
    rcases (station_distinct_key hwf hs hs0mem hne2).2 with h | h
    · exact absurd hsname h
    · exact h
  refine ⟨⟨id, s0.name, s0.lineId, lf.name, s0.status⟩, db, ?_, rfl⟩
  unfold Service.updateStation
  rw [htrim]
  simp [hne, strLen, hrepo]

/-- Witness for C10: updating station 2 of the small store with the
all-whitespace name and no status succeeds and changes nothing. -/
theorem claim_C10_whitespace_name_update_witness :
    ∃ resp db2,
      Service.updateStation smallDB (some 2) "   " "" = .ok (resp, db2) ∧ db2 = smallDB :=
  claim_C10_whitespace_name_update smallDB 2 "   " (by decide) (by decide) (by decide)
    (by decide)

/-- The conflict-update arm of the incident upsert neither creates nor
destroys rows matching the conflict triple. -/
theorem countP_upsertMap (s l : Nat) (t d : Int) (ty : String) (xs : List Incident) :
    (xs.map (fun i => if i.stationId = s && i.lineId = l && i.ts = t then
        { i with durationMinutes := d, incidentType := ty } else i)).countP
      (fun i => i.stationId = s && i.lineId = l && i.ts = t) =
    xs.countP (fun i => i.stationId = s && i.lineId = l && i.ts = t) := by
  rw [List.countP_map]
  apply List.countP_congr
  intro i _
  simp only [Function.comp_apply]
  by_cases hp : (i.stationId = s && i.lineId = l && i.ts = t) = true
  · rw [if_pos hp]
  · rw [if_neg hp]

/-- After the conflict-update arm, every row matching the triple carries the
new duration and type. -/
theorem mem_upsertMap (s l : Nat) (t d : Int) (ty : String) (xs : List Incident) :
    ∀ i ∈ xs.map (fun i => if i.stationId = s && i.lineId = l && i.ts = t then
        { i with durationMinutes := d, incidentType := ty } else i),
      i.stationId = s → i.lineId = l → i.ts = t →
      i.durationMinutes = d ∧ i.incidentType = ty := by
  intro i hi h1 h2 h3
  obtain ⟨j, hj, rfl⟩ := List.mem_map.mp hi
  by_cases hp : (j.stationId = s && j.lineId = l && j.ts = t) = true
  · rw [if_pos hp]
    exact ⟨rfl, rfl⟩
  · rw [if_neg hp] at h1 h2 h3
    exact absurd (by simp [h1, h2, h3]) hp

/-- C1: two CreateIncident submissions with the same resolved
`(station_id, line_id, ts)` triple both succeed and leave exactly one row for
the triple, carrying the second submission's duration and type. -/
theorem claim_C1_incident_upsert_idempotent (db : DB) (s l : Nat) (t d1 d2 : Int)
    (ty1 ty2 : String)
    (hs : db.stations.any (fun st => st.id = s) = true)
    (hl : db.lines.any (fun li => li.id = l) = true)
    (huniq : tripleCount db s l t ≤ 1) :
    ∃ i1 db1 i2 db2,
      Repository.createIncident db s l t d1 ty1 = .ok (i1, db1) ∧
      Repository.createIncident db1 s l t d2 ty2 = .ok (i2, db2) ∧
      tripleCount db2 s l t = 1 ∧
      i2.stationId = s ∧ i2.lineId = l ∧ i2.ts = t ∧
      i2.durationMinutes = d2 ∧ i2.incidentType = ty2 ∧
      (∀ i ∈ db2.incidents, i.stationId = s → i.lineId = l → i.ts = t →
        i.durationMinutes = d2 ∧ i.incidentType = ty2) := by
  have hcount : ∀ d : DB, tripleCount d s l t =
      d.incidents.countP (fun i => i.stationId = s && i.lineId = l && i.ts = t) := by
    intro d
    rw [tripleCount, List.countP_eq_length_filter]
  have upd2 : ∀ (dbx : DB) (o : Incident),
      dbx.incidents.find? (fun i => i.stationId = s && i.lineId = l && i.ts = t) = some o →
      Repository.createIncident dbx s l t d2 ty2 =
        .ok (⟨o.id, o.stationId, o.lineId, o.ts, d2, ty2, o.status⟩,
          { dbx with incidents := dbx.incidents.map (fun i =>
              if i.stationId = s && i.lineId = l && i.ts = t then
                { i with durationMinutes := d2, incidentType := ty2 } else i) }) := by
    intro dbx o hx
    unfold Repository.createIncident
    rw [hx]
  cases hf : db.incidents.find?
      (fun i => i.stationId = s && i.lineId = l && i.ts = t) with
  | none =>
    have hc0 : db.incidents.countP
        (fun i => i.stationId = s && i.lineId = l && i.ts = t) = 0 := by
      rw [List.countP_eq_zero]
      intro a ha
      have := List.find?_eq_none.mp hf a ha
      simpa using this
    have e1 : Repository.createIncident db s l t d1 ty1 =
        .ok (⟨db.nextId, s, l, t, d1, ty1, "open"⟩,
          { db with
              incidents := db.incidents ++ [⟨db.nextId, s, l, t, d1, ty1, "open"⟩],
              nextId := db.nextId + 1 }) := by
      unfold Repository.createIncident
      rw [hf, hs, hl]
      rfl
    have hf1 : (db.incidents ++
          [(⟨db.nextId, s, l, t, d1, ty1, "open"⟩ : Incident)]).find?
        (fun i => i.stationId = s && i.lineId = l && i.ts = t) =
        some ⟨db.nextId, s, l, t, d1, ty1, "open"⟩ := by
      rw [List.find?_append, hf, Option.none_or]
      exact List.find?_cons_of_pos _ (by simp)
    have e2 := upd2
      { db with
          incidents := db.incidents ++ [⟨db.nextId, s, l, t, d1, ty1, "open"⟩],
          nextId := db.nextId + 1 }
      ⟨db.nextId, s, l, t, d1, ty1, "open"⟩ hf1
    refine ⟨_, _, _, _, e1, e2, ?_, rfl, rfl, rfl, rfl, rfl, ?_⟩
    · rw [hcount]
      simp only
      rw [countP_upsertMap, List.countP_append, hc0]
      simp
    · simp only
      exact mem_upsertMap s l t d2 ty2 _
  | some old =>
    have hp_old := List.find?_some hf
    have hc1 : db.incidents.countP
        (fun i => i.stationId = s && i.lineId = l && i.ts = t) = 1 := by
      have hle : db.incidents.countP
          (fun i => i.stationId = s && i.lineId = l && i.ts = t) ≤ 1 := by
        rw [← hcount]
        exact huniq
      have hpos : 0 < db.incidents.countP
          (fun i => i.stationId = s && i.lineId = l && i.ts = t) := by
        rw [List.countP_pos_iff]
        exact ⟨old, List.mem_of_find?_eq_some hf, hp_old⟩
      omega
    have hc1m : (db.incidents.map (fun i =>
        if i.stationId = s && i.lineId = l && i.ts = t then
          { i with durationMinutes := d1, incidentType := ty1 } else i)).countP
        (fun i => i.stationId = s && i.lineId = l && i.ts = t) = 1 := by
      rw [countP_upsertMap]
      exact hc1
    have hf2some : ((db.incidents.map (fun i =>
        if i.stationId = s && i.lineId = l && i.ts = t then
          { i with durationMinutes := d1, incidentType := ty1 } else i)).find?
        (fun i => i.stationId = s && i.lineId = l && i.ts = t)).isSome := by
      rw [List.find?_isSome, ← List.countP_pos_iff, hc1m]
      omega
    obtain ⟨old2, hfind2⟩ := Option.isSome_iff_exists.mp hf2some
    have hp_old2 := List.find?_some hfind2
    have hcomp : old2.stationId = s ∧ old2.lineId = l ∧ old2.ts = t := by
      simpa [Bool.and_eq_true, and_assoc] using hp_old2
    have e1 : Repository.createIncident db s l t d1 ty1 =
        .ok (⟨old.id, old.stationId, old.lineId, old.ts, d1, ty1, old.status⟩,
          { db with incidents := db.incidents.map (fun i =>
              if i.stationId = s && i.lineId = l && i.ts = t then
                { i with durationMinutes := d1, incidentType := ty1 } else i) }) := by
      unfold Repository.createIncident
      rw [hf]
    have e2 := upd2
      { db with incidents := db.incidents.map (fun i =>
          if i.stationId = s && i.lineId = l && i.ts = t then
            { i with durationMinutes := d1, incidentType := ty1 } else i) }
      old2 hfind2
    refine ⟨_, _, _, _, e1, e2, ?_, hcomp.1, hcomp.2.1, hcomp.2.2, rfl, rfl, ?_⟩
    · rw [hcount]
      simp only
      rw [countP_upsertMap, countP_upsertMap]
      exact hc1
    · simp only
      exact mem_upsertMap s l t d2 ty2 _

/-- Witness for C1: submitting the same triple twice into the small store
yields one row with the second duration and type. -/
theorem claim_C1_incident_upsert_idempotent_witness :
    ∃ i1 db1 i2 db2,
      Repository.createIncident smallDB 2 0 7200 30 "power" = .ok (i1, db1) ∧
      Repository.createIncident db1 2 0 7200 45 "signal" = .ok (i2, db2) ∧
      tripleCount db2 2 0 7200 = 1 ∧
      i2.stationId = 2 ∧ i2.lineId = 0 ∧ i2.ts = 7200 ∧
      i2.durationMinutes = 45 ∧ i2.incidentType = "signal" ∧
      (∀ i ∈ db2.incidents, i.stationId = 2 → i.lineId = 0 → i.ts = 7200 →
        i.durationMinutes = 45 ∧ i.incidentType = "signal") :=
  claim_C1_incident_upsert_idempotent smallDB 2 0 7200 30 45 "power" "signal"
    (by decide) (by decide) (by decide)

/-- C6: every returned disruption comes from the incident-line-station join
and matches the line filter exactly when one is given and the station filter
exactly when one is given (AND-combined); the result is ordered by timestamp
descending; and when no LIMIT clause is added (limit ≤ 0) every joined row
matching the filters is returned. -/
theorem claim_C6_recent_disruptions (db : DB) (lineName stationName : String)
    (limit : Int) :
    (∀ r ∈ Repository.getRecentDisruptions db lineName stationName limit,
      r ∈ joinedIncidents db ∧
      (lineName ≠ "" → r.lineName = lineName) ∧
      (stationName ≠ "" → r.stationName = stationName)) ∧
    (Repository.getRecentDisruptions db lineName stationName limit).Sorted tsDesc ∧
    (limit ≤ 0 → ∀ r ∈ joinedIncidents db,
      (lineName ≠ "" → r.lineName = lineName) →
      (stationName ≠ "" → r.stationName = stationName) →
      r ∈ Repository.getRecentDisruptions db lineName stationName limit) := by
  refine ⟨?_, ?_, ?_⟩
  · intro r hr
    simp only [Repository.getRecentDisruptions] at hr
    split_ifs at hr <;>
      · try replace hr := List.take_subset _ _ hr
        replace hr := (List.perm_insertionSort tsDesc _).mem_iff.mp hr
        try simp only [List.mem_filter, decide_eq_true_eq] at hr
        refine ⟨?_, ?_, ?_⟩ <;> tauto
  · simp only [Repository.getRecentDisruptions]
    split_ifs <;>
      first
      | exact List.Pairwise.sublist (List.take_sublist _ _) (List.sorted_insertionSort _ _)
      | exact List.sorted_insertionSort _ _
  · intro hlim r hr hLi hSi
    simp only [Repository.getRecentDisruptions]
    have hnot : ¬ 0 < limit := by omega
    rw [if_neg hnot]
    rw [(List.perm_insertionSort tsDesc _).mem_iff]
    split_ifs <;> (try simp only [List.mem_filter, decide_eq_true_eq]) <;> tauto

/-- Witness for C6: with the line filter set and no limit clause, the joined
row of the small store's incident is returned. -/
theorem claim_C6_recent_disruptions_witness :
    (⟨⟨4, 2, 0, 3600, 25, "signal", "open"⟩, "North South Line", "Jurong East"⟩ :
        IncidentWithDetails) ∈
      Repository.getRecentDisruptions smallDB "North South Line" "" 0 :=
  (claim_C6_recent_disruptions smallDB "North South Line" "" 0).2.2 (by decide) _
    (by decide) (by decide) (by decide)

/-- Sorting the per-name counts by descending count and truncating satisfies
the top-breakdowns shape. -/
theorem topBreakdownsPost_sortTake (names : List String) (count : String → Nat) (k : Nat) :
    TopBreakdownsPost names count k
      (((names.map (fun n => (n, count n))).insertionSort countDesc).take k) := by
  refine ⟨?_, ?_, ?_, ?_⟩
  · exact List.Pairwise.sublist (List.take_sublist _ _) (List.sorted_insertionSort _ _)
  · rw [List.length_take, List.Perm.length_eq (List.perm_insertionSort countDesc _),
      List.length_map]
  · intro p hp
    replace hp := List.take_subset _ _ hp
    replace hp := (List.perm_insertionSort countDesc _).mem_iff.mp hp
    obtain ⟨n, hn, rfl⟩ := List.mem_map.mp hp
    exact ⟨hn, rfl⟩
  · intro hle n hn
    have hlen : ((names.map (fun n => (n, count n))).insertionSort countDesc).length =
        names.length := by
      rw [List.Perm.length_eq (List.perm_insertionSort countDesc _), List.length_map]
    rw [List.take_of_length_le (by rw [hlen]; exact hle)]
    exact (List.perm_insertionSort countDesc _).mem_iff.mpr (List.mem_map_of_mem _ hn)

/-- C5 counterexample: the scope string "LINE" is neither "line" nor
"station", yet GetTopBreakdowns accepts it (the handler lowercases and trims
before checking) — so "any other scope value is rejected with
InvalidArgument" is false as literally stated. -/
theorem claim_C5_counterexample :
    "LINE" ≠ "line" ∧ "LINE" ≠ "station" ∧
    Service.getTopBreakdowns emptyDB "LINE" 5 = .ok ("line", []) := by
  decide

/-- C5 amended: a scope whose trimmed, lowercased form is neither "line" nor
"station" is rejected with InvalidArgument; a scope normalizing to "line"
(resp. "station") yields the line (resp. station) breakdown: counts grouped
by the entity's name with zero-incident entities included, ordered by count
descending, truncated to the effective limit. -/
theorem claim_C5_top_breakdowns (db : DB) (reqScope : String) (reqLimit : Int) :
    (toLowerGo (trimSpace reqScope) ≠ "line" →
      toLowerGo (trimSpace reqScope) ≠ "station" →
      Service.getTopBreakdowns db reqScope reqLimit =
        .error ⟨.invalidArgument, "scope must be line or station"⟩) ∧
    (toLowerGo (trimSpace reqScope) = "line" →
      Service.getTopBreakdowns db reqScope reqLimit =
        .ok ("line", Repository.getTopBreakdownsByLine db
          (Service.effectiveTopBreakdownsLimit reqLimit)) ∧
      TopBreakdownsPost (lineGroupNames db) (countByLineName db)
        (Service.effectiveTopBreakdownsLimit reqLimit).toNat
        (Repository.getTopBreakdownsByLine db
          (Service.effectiveTopBreakdownsLimit reqLimit))) ∧
    (toLowerGo (trimSpace reqScope) = "station" →
      Service.getTopBreakdowns db reqScope reqLimit =
        .ok ("station", Repository.getTopBreakdownsByStation db
          (Service.effectiveTopBreakdownsLimit reqLimit)) ∧
      TopBreakdownsPost (stationGroupNames db) (countByStationName db)
        (Service.effectiveTopBreakdownsLimit reqLimit).toNat
        (Repository.getTopBreakdownsByStation db
          (Service.effectiveTopBreakdownsLimit reqLimit))) := by
  refine ⟨fun h1 h2 => ?_, fun h => ⟨?_, ?_⟩, fun h => ⟨?_, ?_⟩⟩
  · simp [Service.getTopBreakdowns, h1, h2]
  · simp [Service.getTopBreakdowns, h]
  · exact topBreakdownsPost_sortTake _ _ _
  · simp [Service.getTopBreakdowns, h]
  · exact topBreakdownsPost_sortTake _ _ _

/-- Witness for C5: the normalized scope " STATION " dispatches to the
station breakdown and "weird" is rejected. -/
theorem claim_C5_top_breakdowns_witness :
    Service.getTopBreakdowns smallDB " STATION " 7 =
      .ok ("station", Repository.getTopBreakdownsByStation smallDB
        (Service.effectiveTopBreakdownsLimit 7)) ∧
    Service.getTopBreakdowns smallDB "weird" 7 =
      .error ⟨.invalidArgument, "scope must be line or station"⟩ :=
  ⟨((claim_C5_top_breakdowns smallDB " STATION " 7).2.2 (by decide)).1,
   (claim_C5_top_breakdowns smallDB "weird" 7).1 (by decide) (by decide)⟩

/-- A list of first differences has one entry fewer than its source. -/
theorem successiveGaps_length : ∀ ts : List Int,
    (successiveGaps ts).length = ts.length - 1
  | [] => rfl
  | [_] => rfl
  | a :: b :: rest => by
    have ih := successiveGaps_length (b :: rest)
    simp only [successiveGaps, List.length_cons, ih]
    omega

/-- The ordered timestamp window of a line has one entry per incident of the
line. -/
theorem incidentTimesOnLine_length (db : DB) (lineId : Nat) :
    (incidentTimesOnLine db lineId).length =
      (db.incidents.filter (fun i => i.lineId = lineId)).length := by
  unfold incidentTimesOnLine
  rw [List.Perm.length_eq (List.perm_insertionSort _ _), List.length_map]

/-- In a store whose line names are unique, two lines with the same name are
the same row. -/
theorem line_eq_of_same_name {db : DB}
    (hnames : db.lines.Pairwise (fun a b => a.name ≠ b.name)) {a b : Line}
    (ha : a ∈ db.lines) (hb : b ∈ db.lines) (h : a.name = b.name) : a = b := by
  by_contra hne
  have hsym : Symmetric (fun a b : Line => a.name ≠ b.name) :=
    fun x y hxy heq => hxy heq.symm
  exact List.Pairwise.forall hsym hnames ha hb hne h

/-- Membership in the MTBF result, characterized over the source lines. -/
theorem calculateMTBF_mem_iff (db : DB) (x : String × ℚ) :
    x ∈ Repository.calculateMTBF db ↔ ∃ l ∈ db.lines,
      1 ≤ (successiveGaps (incidentTimesOnLine db l.id)).length ∧
      x = (l.name, pgRound2 (ratMean (successiveGaps (incidentTimesOnLine db l.id)))) := by
  unfold Repository.calculateMTBF
  rw [(List.perm_insertionSort nameAsc _).mem_iff, List.mem_filterMap]
  constructor
  · rintro ⟨l, hl, hf⟩
    by_cases hc : 1 ≤ (successiveGaps (incidentTimesOnLine db l.id)).length
    · rw [if_pos hc] at hf
      exact ⟨l, hl, hc, (Option.some.inj hf).symm⟩
    · rw [if_neg hc] at hf
      exact absurd hf (by simp)
  · rintro ⟨l, hl, hc, rfl⟩
    exact ⟨l, hl, by rw [if_pos hc]⟩

/-- C2: GetMTBF reports exactly the lines with at least two incidents, each
with the mean of the successive inter-arrival gaps in minutes of its
timestamp-ordered incidents, rounded to two decimals, rows ordered by line
name ascending; a line with fewer than two incidents contributes no row. -/
theorem claim_C2_mtbf (db : DB)
    (hnames : db.lines.Pairwise (fun a b => a.name ≠ b.name)) :
    Service.getMTBF db = .ok (Repository.calculateMTBF db) ∧
    (Repository.calculateMTBF db).Sorted nameAsc ∧
    (∀ l ∈ db.lines, 2 ≤ (db.incidents.filter (fun i => i.lineId = l.id)).length →
      (l.name, pgRound2 (ratMean (successiveGaps (incidentTimesOnLine db l.id)))) ∈
        Repository.calculateMTBF db) ∧
    (∀ l ∈ db.lines, (db.incidents.filter (fun i => i.lineId = l.id)).length < 2 →
      ∀ q, (l.name, q) ∉ Repository.calculateMTBF db) ∧
    (∀ p ∈ Repository.calculateMTBF db, ∃ l ∈ db.lines, p.1 = l.name ∧
      2 ≤ (db.incidents.filter (fun i => i.lineId = l.id)).length ∧
      p.2 = pgRound2 (ratMean (successiveGaps (incidentTimesOnLine db l.id)))) := by
  refine ⟨rfl, ?_, ?_, ?_, ?_⟩
  · unfold Repository.calculateMTBF
    exact List.sorted_insertionSort _ _
  · intro l hl hcnt
    refine (calculateMTBF_mem_iff db _).mpr ⟨l, hl, ?_, rfl⟩
    rw [successiveGaps_length, incidentTimesOnLine_length]
    omega
  · intro l hl hcnt q hq
    obtain ⟨l2, hl2, hc2, heq⟩ := (calculateMTBF_mem_iff db _).mp hq
    have hname : l.name = l2.name := congrArg Prod.fst heq
    have hll : l2 = l := line_eq_of_same_name hnames hl2 hl hname.symm
    rw [hll, successiveGaps_length, incidentTimesOnLine_length] at hc2
    omega
  · intro p hp
    obtain ⟨l, hl, hc, heq⟩ := (calculateMTBF_mem_iff db _).mp hp
    rw [successiveGaps_length, incidentTimesOnLine_length] at hc
    exact ⟨l, hl, congrArg Prod.fst heq, by omega, congrArg Prod.snd heq⟩

/-- Witness for C2: the worked example — one line with incidents at t0,
t0+10min, t0+30min — reports exactly mtbf 15.00 for that line, and the
membership clause of the theorem places the line's row in the result. -/
theorem claim_C2_mtbf_witness :
    Repository.calculateMTBF mtbfExampleDB = [("North South Line", 15)] ∧
    ("North South Line",
        pgRound2 (ratMean (successiveGaps (incidentTimesOnLine mtbfExampleDB 0)))) ∈
      Repository.calculateMTBF mtbfExampleDB :=
  ⟨by
    simp [Repository.calculateMTBF, incidentTimesOnLine, successiveGaps, ratMean,
      pgRound2, mtbfExampleDB, List.insertionSort, List.orderedInsert, nameAsc]
    norm_num,
   (claim_C2_mtbf mtbfExampleDB (by decide)).2.2.1 ⟨0, "North South Line"⟩ (by decide)
     (by decide)⟩

/-- C9 counterexample: on an empty store, under the schedule A-select,
B-select, A-insert, B-insert, caller B of GetOrCreateLine finishes with the
wrapped unique-violation store error rather than the row — the
select-then-insert implementation inside a default transaction does not give
every concurrent caller the row, refuting the claimed single atomic
insert-on-conflict resolution. -/
theorem claim_C9_counterexample :
    (raceFinal emptyDB "Circle Line" [true, false, true, false]).callA =
      .done (.ok ⟨0, "Circle Line"⟩) ∧
    (raceFinal emptyDB "Circle Line" [true, false, true, false]).callB =
      .done (.error .databaseError) ∧
    linesNamed (raceFinal emptyDB "Circle Line" [true, false, true, false]).db
      "Circle Line" = 1 := by
  decide

/-- Appending one line changes the named-row count by one when the names
match and not at all otherwise. -/
theorem linesNamed_append (db : DB) (name : String) (l : Line) :
    linesNamed { db with lines := db.lines ++ [l], nextId := db.nextId + 1 } name =
      linesNamed db name + (if l.name = name then 1 else 0) := by
  unfold linesNamed
  simp only [List.filter_append, List.length_append]
  split_ifs with h <;> simp [List.filter_cons, h]

/-- A caller's invariant survives growth of the store by another caller. -/
theorem callOK_mono {name : String} {db db2 : DB}
    (hsub : ∀ l, l ∈ db.lines → l ∈ db2.lines)
    (hcnt : linesNamed db name ≤ linesNamed db2 name) (c : CallPhase)
    (h : callOK name db c) : callOK name db2 c := by
  cases c with
  | start => trivial
  | mustInsert => trivial
  | done r =>
    cases r with
    | ok l => exact ⟨hsub l h.1, h.2⟩
    | error e => exact ⟨h.1, le_trans h.2 hcnt⟩

/-- One statement of one caller preserves the race invariant. -/
theorem stepCaller_preserves (name : String) (db : DB) (c other : CallPhase)
    (hinv : linesNamed db name ≤ 1) (hc : callOK name db c)
    (hother : callOK name db other) :
    linesNamed (stepCaller name db c).1 name ≤ 1 ∧
    callOK name (stepCaller name db c).1 (stepCaller name db c).2 ∧
    callOK name (stepCaller name db c).1 other := by
  cases c with
  | done r => exact ⟨hinv, hc, hother⟩
  | start =>
    cases hf : db.lines.find? (fun l => l.name = name) with
    | some l =>
      have hstep : stepCaller name db .start = (db, .done (.ok l)) := by
        simp only [stepCaller, hf]
      rw [hstep]
      exact ⟨hinv, ⟨List.mem_of_find?_eq_some hf, by simpa using List.find?_some hf⟩,
        hother⟩
    | none =>
      have hstep : stepCaller name db .start = (db, .mustInsert) := by
        simp only [stepCaller, hf]
      rw [hstep]
      exact ⟨hinv, trivial, hother⟩
  | mustInsert =>
    by_cases hany : (db.lines.any (fun l => l.name = name)) = true
    · have hstep : stepCaller name db .mustInsert = (db, .done (.error .databaseError)) := by
        simp only [stepCaller, if_pos hany]
      rw [hstep]
      obtain ⟨l, hl, hp⟩ := List.any_eq_true.mp hany
      have hpos : 1 ≤ linesNamed db name :=
        List.length_pos_of_mem (List.mem_filter.mpr ⟨hl, hp⟩)
      exact ⟨hinv, ⟨rfl, hpos⟩, hother⟩
    · have hstep : stepCaller name db .mustInsert =
          ({ db with lines := db.lines ++ [⟨db.nextId, name⟩], nextId := db.nextId + 1 },
            .done (.ok ⟨db.nextId, name⟩)) := by
        simp only [stepCaller, if_neg hany]
      rw [hstep]
      dsimp only
      have hzero : linesNamed db name = 0 := by
        unfold linesNamed
        rw [List.length_eq_zero, List.filter_eq_nil_iff]
        intro l hl
        exact (List.any_eq_false.mp (Bool.not_eq_true _ ▸ hany)) l hl
      have hcnt : linesNamed
          { db with lines := db.lines ++ [⟨db.nextId, name⟩], nextId := db.nextId + 1 }
          name = 1 := by
        rw [linesNamed_append, hzero, if_pos rfl]
      refine ⟨by omega, ⟨?_, rfl⟩, ?_⟩
      · exact List.mem_append_right _ (by simp)
      · refine callOK_mono (fun l hl => List.mem_append_left _ hl) ?_ other hother
        omega

/-- Every schedule preserves the race invariant. -/
theorem raceStep_preserves (name : String) (st : RaceState) (pick : Bool)
    (h : RaceInv name st) : RaceInv name (raceStep name st pick) := by
  obtain ⟨h1, h2, h3⟩ := h
  cases pick with
  | true =>
    have hs := stepCaller_preserves name st.db st.callA st.callB h1 h2 h3
    exact ⟨hs.1, hs.2.1, hs.2.2⟩
  | false =>
    have hs := stepCaller_preserves name st.db st.callB st.callA h1 h3 h2
    exact ⟨hs.1, hs.2.2, hs.2.1⟩

/-- The race invariant holds after running any schedule. -/
theorem raceRun_preserves (name : String) (sched : List Bool) (st : RaceState)
    (h : RaceInv name st) : RaceInv name (raceRun name st sched) := by
  induction sched generalizing st with
  | nil => exact h
  | cons p rest ih => exact ih _ (raceStep_preserves name st p h)

/-- C9 amended: GetOrCreateLine is select-then-insert inside a
default-isolation transaction, so under two concurrent same-name callers the
`UNIQUE(name)` constraint — not an atomic insert-on-conflict — resolves the
race: after any schedule at most one row with the name exists (exactly one
once both callers finish), a caller that finishes successfully holds a stored
row with that name, but a caller may instead finish with the wrapped store
error of a unique violation, so not every caller receives the row. -/
theorem claim_C9_get_or_create_line_race (db : DB) (name : String) (sched : List Bool)
    (hinit : linesNamed db name ≤ 1) :
    linesNamed (raceFinal db name sched).db name ≤ 1 ∧
    (∀ rA rB, (raceFinal db name sched).callA = .done rA →
      (raceFinal db name sched).callB = .done rB →
      linesNamed (raceFinal db name sched).db name = 1) ∧
    (∀ l, (raceFinal db name sched).callA = .done (.ok l) →
      l ∈ (raceFinal db name sched).db.lines ∧ l.name = name) ∧
    (∀ l, (raceFinal db name sched).callB = .done (.ok l) →
      l ∈ (raceFinal db name sched).db.lines ∧ l.name = name) ∧
    (∀ e, (raceFinal db name sched).callA = .done (.error e) → e = .databaseError) ∧
    (∀ e, (raceFinal db name sched).callB = .done (.error e) → e = .databaseError) := by
  have hinv : RaceInv name (raceFinal db name sched) :=
    raceRun_preserves name sched ⟨db, .start, .start⟩ ⟨hinit, trivial, trivial⟩
  obtain ⟨h1, hA, hB⟩ := hinv
  refine ⟨h1, ?_, ?_, ?_, ?_, ?_⟩
  · intro rA rB hra hrb
    rw [hra] at hA
    have hge : 1 ≤ linesNamed (raceFinal db name sched).db name := by
      cases rA with
      | ok l =>
        exact List.length_pos_of_mem (List.mem_filter.mpr ⟨hA.1, by simp [hA.2]⟩)
      | error e => exact hA.2
    omega
  · intro l hl
    rw [hl] at hA
    exact hA
  · intro l hl
    rw [hl] at hB
    exact hB
  · intro e he
    rw [he] at hA
    exact hA.1
  · intro e he
    rw [he] at hB
    exact hB.1

/-- Witness for C9 (amended): on the racy schedule exactly one row with the
contended name survives. -/
theorem claim_C9_get_or_create_line_race_witness :
    linesNamed (raceFinal emptyDB "Circle Line" [true, false, true, false]).db
      "Circle Line" = 1 :=
  (claim_C9_get_or_create_line_race emptyDB "Circle Line" [true, false, true, false]
      (by decide)).2.1
    (.ok ⟨0, "Circle Line"⟩) (.error .databaseError) (by decide) (by decide)

end Transport
